import Mathlib

/-!
Verification development for the NCP workflow engine.

This file gives a shallow embedding of the core of the repository:
the workflow-graph analysis engine (`findParentNodes`, `findChildNodes`,
`analyzeTransferContext`, `validateWorkflowConnectionOrder`,
`generateExecutionPlan` from the multi-scope variant of the workflow
analyzer), the session-key lifecycle functions of
`frontend/lib/workflow-utils.ts` (`getSessionKey`, `storeSessionKey`,
`deleteSessionKey`, `markSessionKeyAuthorized`, `hasValidSessionKey`,
`revokeExpiredSessionKeys`), the permission store of `PermissionProvider`,
and the permission-request builder `handleGrantPermission` of
`TokenPermissionCard.tsx`, together with theorems about them.

Modelling conventions:
* JavaScript objects holding node attributes become a structure whose
  fields are `Option`-valued; an absent (or empty-string, hence falsy)
  attribute is `none`.
* Date-valued strings are represented by their parsed value in
  milliseconds since the epoch (`Int`); strings that do not parse to a
  valid date are outside the model (the code rejects them with a
  dedicated error before any property proved here applies).
* JavaScript number division (e.g. `ms / 1000`) is modelled as exact
  division in `Rat` where the code does plain `/`, and as floor division
  on `Int` (`Int.fdiv`) where the code does `Math.floor(x / 1000)`.
* `localStorage` JSON blobs become explicit association lists passed in
  and returned; an absent blob behaves exactly like an empty list, so the
  two are identified.
-/

namespace NCP

/-- Node attribute bag (`NodeData` of `lib/types.ts`), restricted to the
fields the embedded functions actually read.  Every field is optional:
`none` models an absent or empty (falsy) attribute. -/
structure NodeData where
  label : String := ""
  startTime : Option Int := none
  endTime : Option Int := none
  amountLimit : Option String := none
  tokenAddress : Option String := none
  amount : Option String := none
  decimals : Option Nat := none
  symbol : Option String := none
  smartAccountAddress : Option String := none
  -- the source reads this field as `transferData.to`; `to` is reserved in Lean
  toAddr : Option String := none
  contractAddress : Option String := none
  collection : Option String := none
  tokenId : Option String := none
  deriving Repr, DecidableEq

/-- A workflow node: identity, kind discriminant and attribute bag
(`WorkflowNode = Node<NodeData>` of `lib/types.ts`). -/
structure WorkflowNode where
  id : String
  type : String
  data : NodeData := {}
  deriving Repr, DecidableEq

/-- A directed edge of the workflow graph (reactflow `Edge`, restricted
to the fields the analyzer reads). -/
structure Edge where
  id : String := ""
  source : String
  target : String
  deriving Repr, DecidableEq

/-- A workflow snapshot (`Workflow` of `lib/types.ts`). -/
structure Workflow where
  nodes : List WorkflowNode
  edges : List Edge
  deriving Repr, DecidableEq

/-- `findParentNodes` — ids of edges' sources whose target is `nodeId`. -/
def findParentNodes (nodeId : String) (edges : List Edge) : List String :=
  (edges.filter (fun edge => edge.target == nodeId)).map (fun edge => edge.source)

/-- `findChildNodes` — ids of edges' targets whose source is `nodeId`. -/
def findChildNodes (nodeId : String) (edges : List Edge) : List String :=
  (edges.filter (fun edge => edge.source == nodeId)).map (fun edge => edge.target)

/-- One step of the recursive visited-set traversal used by
`analyzeTransferContext` (`traverseParents` / `traverseChildren`).
The state is the visited id set together with the chain of nodes pushed
so far; `next` selects the adjacent ids (parents or children).  `fuel`
only bounds the recursion depth for Lean's termination checker; since a
node id enters the visited set at every non-trivial call, a fuel of
`nodes.length + 1` is never exhausted (see `traverseFrom` callers). -/
def traverseFrom (nodes : List WorkflowNode) (edges : List Edge)
    (next : String → List Edge → List String) :
    Nat → String → List String × List WorkflowNode → List String × List WorkflowNode
  | 0, _, st => st
  | fuel + 1, nodeId, st =>
    if st.1.contains nodeId then st
    else
      (next nodeId edges).foldl
        (fun s adjacentId =>
          match nodes.find? (fun n => n.id == adjacentId) with
          | some adjacentNode =>
            traverseFrom nodes edges next fuel adjacentId (s.1, s.2 ++ [adjacentNode])
          | none => s)
        (nodeId :: st.1, st.2)

/-- The ancestor chain collected by `traverseParents(transferNodeId)`. -/
def parentChainOf (transferNodeId : String) (nodes : List WorkflowNode)
    (edges : List Edge) : List WorkflowNode :=
  (traverseFrom nodes edges findParentNodes (nodes.length + 1) transferNodeId ([], [])).2

/-- The descendant chain collected by `traverseChildren(transferNodeId)`. -/
def childChainOf (transferNodeId : String) (nodes : List WorkflowNode)
    (edges : List Edge) : List WorkflowNode :=
  (traverseFrom nodes edges findChildNodes (nodes.length + 1) transferNodeId ([], [])).2

/-- The swap node the analyzer finds in the descendant chain. -/
def swapNodeOf (transferNodeId : String) (nodes : List WorkflowNode)
    (edges : List Edge) : Option WorkflowNode :=
  (childChainOf transferNodeId nodes edges).find? (fun n => n.type == "swap")

/-- Accumulator of the scope-node collection loop of
`analyzeTransferContext`: the `tokenNodeIds` dedup set and the
`tokenNodes` / `nativeTokenNodes` lists being built. -/
structure TokenAcc where
  ids : List String := []
  tokens : List WorkflowNode := []
  natives : List WorkflowNode := []
  deriving Repr, DecidableEq

/-- Body of the scope-collection loop: look the child id up, skip ids
already collected, and append the node to the list matching its kind. -/
def collectStep (nodes : List WorkflowNode) (acc : TokenAcc) (childId : String) : TokenAcc :=
  match nodes.find? (fun n => n.id == childId) with
  | some childNode =>
    if acc.ids.contains childNode.id then acc
    else if childNode.type == "erc20-tokens" then
      { ids := childNode.id :: acc.ids, tokens := acc.tokens ++ [childNode],
        natives := acc.natives }
    else if childNode.type == "native-token" then
      { ids := childNode.id :: acc.ids, tokens := acc.tokens,
        natives := acc.natives ++ [childNode] }
    else acc
  | none => acc

/-- The scope nodes `analyzeTransferContext` collects: first the direct
children of the Transfer node, then — when a swap node was found in the
descendant chain — the direct children of that swap node. -/
def scopeAccOf (transferNodeId : String) (nodes : List WorkflowNode)
    (edges : List Edge) : TokenAcc :=
  let acc1 := (findChildNodes transferNodeId edges).foldl (collectStep nodes) {}
  match swapNodeOf transferNodeId nodes edges with
  | some swapNode => (findChildNodes swapNode.id edges).foldl (collectStep nodes) acc1
  | none => acc1

/-- `PermissionParameters` extracted from a scope node. `periodDuration`
is in seconds (`Rat`, since the code divides milliseconds by 1000 with
plain JavaScript division). -/
structure PermissionParameters where
  startTime : Option Int := none
  endTime : Option Int := none
  amountLimit : Option String := none
  tokenAddress : Option String := none
  periodAmount : Option String := none
  periodDuration : Option Rat := none
  decimals : Option Nat := none
  symbol : Option String := none
  deriving Repr, DecidableEq

/-- Permission parameters built from an `erc20-tokens` scope node's data
(`analyzeTransferContext`, token branch).  `tokenData.decimals || 18`
is JavaScript truthiness: an absent or zero value falls back to 18. -/
def mkTokenPermissionParams (d : NodeData) : PermissionParameters :=
  { startTime := d.startTime
    endTime := d.endTime
    amountLimit := d.amountLimit
    tokenAddress := d.tokenAddress
    periodAmount := d.amount
    decimals := some (match d.decimals with
      | some dec => if dec = 0 then 18 else dec
      | none => 18)
    symbol := d.symbol
    periodDuration := some (match d.startTime, d.endTime with
      | some s, some e => ((e : Rat) - (s : Rat)) / 1000
      | _, _ => 86400) }

/-- Permission parameters built from a `native-token` scope node's data
(`analyzeTransferContext`, native branch): 18 decimals, symbol `ETH`. -/
def mkNativePermissionParams (d : NodeData) : PermissionParameters :=
  { startTime := d.startTime
    endTime := d.endTime
    amountLimit := d.amountLimit
    periodAmount := d.amount
    decimals := some 18
    symbol := some "ETH"
    periodDuration := some (match d.startTime, d.endTime with
      | some s, some e => ((e : Rat) - (s : Rat)) / 1000
      | _, _ => 86400) }

/-- `ExecutionContext` of the multi-scope analyzer.  `nftNode` is read
by `generateExecutionPlan` although the analyzer never sets it (the TS
interface does not even declare it; the read yields `undefined`), so it
is carried here as an always-`none` field. -/
structure ExecutionContext where
  smartAccountNode : Option WorkflowNode := none
  tokenNode : Option WorkflowNode := none
  nativeTokenNode : Option WorkflowNode := none
  allTokenNodes : List WorkflowNode := []
  allNativeTokenNodes : List WorkflowNode := []
  nftNode : Option WorkflowNode := none
  transferNode : Option WorkflowNode := none
  operationType : String
  smartAccountAddress : Option String := none
  permissionParams : Option PermissionParameters := none
  deriving Repr, DecidableEq

/-- The multi-scope `analyzeTransferContext`: resolve the transfer node,
walk ancestors for the `erc4337` account node, walk descendants for a
swap node, collect scope nodes from the direct children of the transfer
node and of the swap node (deduplicated by id), derive permission
parameters from the first scope node (fungible before native) and
classify the operation type. -/
def analyzeTransferContext (transferNodeId : String) (nodes : List WorkflowNode)
    (edges : List Edge) : ExecutionContext :=
  match nodes.find? (fun n => n.id == transferNodeId) with
  | none => { operationType := "unknown" }
  | some transferNode =>
    let parentChain := parentChainOf transferNodeId nodes edges
    let smartAccountNode := parentChain.find? (fun n => n.type == "erc4337")
    let acc := scopeAccOf transferNodeId nodes edges
    let tokenNodes := acc.tokens
    let nativeTokenNodes := acc.natives
    let tokenNode := tokenNodes.head?
    let nativeTokenNode := nativeTokenNodes.head?
    let permissionParams : Option PermissionParameters :=
      match tokenNode with
      | some t => some (mkTokenPermissionParams t.data)
      | none =>
        match nativeTokenNode with
        | some nt => some (mkNativePermissionParams nt.data)
        | none => none
    let operationType :=
      if smartAccountNode.isSome && tokenNode.isSome then "erc20-transfer"
      else if smartAccountNode.isSome && nativeTokenNode.isSome then "eth-transfer"
      else if smartAccountNode.isSome then "eth-transfer"
      else "unknown"
    { smartAccountNode := smartAccountNode
      tokenNode := tokenNode
      nativeTokenNode := nativeTokenNode
      allTokenNodes := tokenNodes
      allNativeTokenNodes := nativeTokenNodes
      transferNode := some transferNode
      operationType := operationType
      smartAccountAddress := smartAccountNode.bind (fun n => n.data.smartAccountAddress)
      permissionParams := permissionParams }

/-- The `details` object attached to results of
`validateWorkflowConnectionOrder` (shaped per-branch in TS, hence every
field optional here). -/
structure ValidationDetails where
  expected : Option String := none
  found : Option String := none
  order : Option String := none
  pattern : Option String := none
  tokenCount : Option Nat := none
  deriving Repr, DecidableEq

/-- Result of `validateWorkflowConnectionOrder`. -/
structure ValidationResult where
  valid : Bool
  reason : Option String := none
  details : Option ValidationDetails := none
  deriving Repr, DecidableEq

/-- The account-node selector of `validateWorkflowConnectionOrder`:
an `erc4337` node other than the `agent-default` placeholder. -/
def isAccountNode (n : WorkflowNode) : Bool :=
  n.type == "erc4337" && n.id != "agent-default"

/-- Token nodes of a graph: `erc20-tokens` or `native-token` kind. -/
def tokenNodesOf (nodes : List WorkflowNode) : List WorkflowNode :=
  nodes.filter (fun n => n.type == "erc20-tokens" || n.type == "native-token")

/-- `validateWorkflowConnectionOrder`: checks the graph against the two
sanctioned shapes (ERC-4337 → Transfer → token(s), or
ERC-4337 → Transfer → Swap → token(s)) and reports a structured
success or failure. -/
def validateWorkflowConnectionOrder (nodes : List WorkflowNode)
    (edges : List Edge) : ValidationResult :=
  match nodes.find? isAccountNode with
  | none => { valid := false, reason := some "ERC-4337 Account node is required" }
  | some erc4337Node =>
    match nodes.find? (fun n => n.type == "transfer") with
    | none => { valid := false, reason := some "Transfer node is required" }
    | some transferNode =>
      if (tokenNodesOf nodes).isEmpty then
        { valid := false
          reason := some "At least one Token node (Native Token or ERC-20 Token) is required" }
      else
        match edges.find? (fun e => e.source == erc4337Node.id && e.target == transferNode.id) with
        | none =>
          { valid := false
            reason := some "ERC-4337 Account must be connected TO Transfer node"
            details := some { expected := some (erc4337Node.id ++ " → " ++ transferNode.id)
                              found := some "Connection missing" } }
        | some _ =>
          match nodes.find? (fun n => n.type == "swap") with
          | some swapNode =>
            match edges.find? (fun e => e.source == transferNode.id && e.target == swapNode.id) with
            | none =>
              { valid := false
                reason := some "Transfer node must be connected TO Swap node"
                details := some { expected := some (transferNode.id ++ " → " ++ swapNode.id)
                                  found := some "Connection missing" } }
            | some _ =>
              let tokensConnectedToSwap := (tokenNodesOf nodes).filter (fun token =>
                edges.any (fun e => e.source == swapNode.id && e.target == token.id))
              if tokensConnectedToSwap.isEmpty then
                { valid := false
                  reason := some "Swap node must be connected TO at least one Token node"
                  details := some { expected := some (swapNode.id ++ " → [Token nodes]")
                                    found := some "No token connections" } }
              else
                { valid := true
                  details := some
                    { order := some (erc4337Node.id ++ " → " ++ transferNode.id ++ " → " ++
                        swapNode.id ++ " → [" ++ toString tokensConnectedToSwap.length ++ " token(s)]")
                      pattern := some "with-swap"
                      tokenCount := some tokensConnectedToSwap.length } }
          | none =>
            let tokensConnectedToTransfer := (tokenNodesOf nodes).filter (fun token =>
              edges.any (fun e => e.source == transferNode.id && e.target == token.id))
            if tokensConnectedToTransfer.isEmpty then
              { valid := false
                reason := some "Transfer node must be connected TO at least one Token node"
                details := some { expected := some (transferNode.id ++ " → [Token nodes]")
                                  found := some "No token connections" } }
            else
              { valid := true
                details := some
                  { order := some (erc4337Node.id ++ " → " ++ transferNode.id ++ " → [" ++
                      toString tokensConnectedToTransfer.length ++ " token(s)]")
                    pattern := some "direct"
                    tokenCount := some tokensConnectedToTransfer.length } }

/-- JavaScript string interpolation of a possibly-undefined value:
an absent value prints as the string `undefined`. -/
def jsShow (o : Option String) : String :=
  match o with
  | some s => s
  | none => "undefined"

/-- JavaScript `x || d` on an optional string: the default is taken when
the value is absent or the empty string (both falsy). -/
def jsOrStr (o : Option String) (d : String) : String :=
  match o with
  | some s => if s = "" then d else s
  | none => d

/-- One entry of `execution_steps` in the plan emitted by
`generateExecutionPlan` (per-operation shape flattened into optionals). -/
structure ExecStep where
  step : Nat
  operation : String
  smart_account : Option String := none
  token_address : Option String := none
  token_symbol : Option String := none
  nft_contract : Option String := none
  nft_collection : Option String := none
  token_id : Option String := none
  recipient : Option String := none
  amount : Option String := none
  description : String := ""
  deriving Repr, DecidableEq

/-- The body of the `generateExecutionPlan` loop for the transfer node at
(0-based) position `i` among the transfer nodes: emit at most one step,
depending on the analyzed context.  The `nft-transfer` branch is carried
over from the source verbatim; it is dead, since the analyzer never
produces that operation type nor an `nftNode`. -/
def stepForTransfer (nodes : List WorkflowNode) (edges : List Edge)
    (i : Nat) (transferNode : WorkflowNode) : Option ExecStep :=
  let context := analyzeTransferContext transferNode.id nodes edges
  if context.operationType == "erc20-transfer" && context.smartAccountNode.isSome
      && context.tokenNode.isSome then
    let tokenData := (context.tokenNode.map (fun n => n.data)).getD {}
    let transferData := transferNode.data
    some { step := i + 1
           operation := "erc20_transfer"
           smart_account := context.smartAccountAddress
           token_address := tokenData.tokenAddress
           token_symbol := tokenData.symbol
           recipient := transferData.toAddr
           amount := transferData.amount
           description := "Transfer " ++ jsOrStr transferData.amount "X" ++ " " ++
             jsOrStr tokenData.symbol "tokens" ++ " to " ++ jsShow transferData.toAddr ++
             " using smart account " ++ jsShow context.smartAccountAddress }
  else if context.operationType == "nft-transfer" && context.smartAccountNode.isSome
      && context.nftNode.isSome then
    let nftData := (context.nftNode.map (fun n => n.data)).getD {}
    let transferData := transferNode.data
    some { step := i + 1
           operation := "nft_transfer"
           smart_account := context.smartAccountAddress
           nft_contract := nftData.contractAddress
           nft_collection := nftData.collection
           token_id := nftData.tokenId
           recipient := transferData.toAddr
           description := "Transfer NFT #" ++ jsOrStr nftData.tokenId "X" ++ " from " ++
             jsOrStr nftData.collection "collection" ++ " to " ++ jsShow transferData.toAddr ++
             " using smart account " ++ jsShow context.smartAccountAddress }
  else if context.operationType == "eth-transfer" && context.smartAccountNode.isSome then
    let transferData := transferNode.data
    some { step := i + 1
           operation := "eth_transfer"
           smart_account := context.smartAccountAddress
           recipient := transferData.toAddr
           amount := transferData.amount
           description := "Transfer " ++ jsOrStr transferData.amount "X" ++ " ETH to " ++
             jsShow transferData.toAddr ++ " using smart account " ++
             jsShow context.smartAccountAddress }
  else none

/-- The plan object returned by `generateExecutionPlan`. -/
structure ExecutionPlan where
  has_executable_steps : Bool
  total_steps : Nat
  execution_steps : List ExecStep
  deriving Repr, DecidableEq

/-- `generateExecutionPlan`: analyze every transfer node (in input order,
with its index among the transfer nodes) and collect the emitted steps. -/
def generateExecutionPlan (workflow : Workflow) : ExecutionPlan :=
  let transferNodes := workflow.nodes.filter (fun n => n.type == "transfer")
  let executionSteps := transferNodes.enum.filterMap
    (fun p => stepForTransfer workflow.nodes workflow.edges p.1 p.2)
  { has_executable_steps := !executionSteps.isEmpty
    total_steps := executionSteps.length
    execution_steps := executionSteps }

/-- The optional `permissions` scope attached to a session key. -/
structure SessionPermissions where
  allowedTargets : Option (List String) := none
  allowedFunctions : Option (List String) := none
  spendingLimit : Option String := none
  deriving Repr, DecidableEq

/-- `SessionKey` of `frontend/lib/workflow-utils.ts`.  Timestamps are in
milliseconds (`Date.now()`). -/
structure SessionKey where
  privateKey : String
  publicKey : String
  address : String
  nodeId : String
  smartAccountAddress : String
  createdAt : Int
  expiresAt : Int
  authorized : Bool
  permissions : Option SessionPermissions := none
  deriving Repr, DecidableEq

/-- The `localStorage` blob under `erc4337_session_keys`: a string-keyed
record of session keys.  An absent blob behaves exactly like an empty
list, so both are modelled as `[]`. -/
abbrev SessionStore := List (String × SessionKey)

/-- The composite storage key for a session key. -/
def compositeKey (nodeId smartAccountAddress : String) : String :=
  nodeId ++ "-" ++ smartAccountAddress

/-- Keyed lookup in the stored record (`keys[compositeKey]`). -/
def storeLookup (store : SessionStore) (key : String) : Option SessionKey :=
  (List.find? (fun p => p.1 == key) store).map Prod.snd

/-- `storeSessionKey`: upsert under the composite key (JS object update:
the new value replaces any previous binding of the same key). -/
def storeSessionKey (store : SessionStore) (sessionKey : SessionKey) : SessionStore :=
  let key := compositeKey sessionKey.nodeId sessionKey.smartAccountAddress
  (key, sessionKey) :: List.filter (fun p => p.1 != key) store

/-- `deleteSessionKey`: remove the binding of the composite key. -/
def deleteSessionKey (store : SessionStore) (nodeId smartAccountAddress : String) :
    SessionStore :=
  List.filter (fun p => p.1 != compositeKey nodeId smartAccountAddress) store

/-- `getSessionKey(nodeId, smartAccountAddress)` at time `now`: `none` if
absent; if expired (`now > expiresAt`), delete the record as a side
effect and return `none`; if not yet authorized, return `none` leaving
the store unchanged; otherwise return the record.  The pair is
(returned value, store after the call). -/
def getSessionKey (now : Int) (store : SessionStore)
    (nodeId smartAccountAddress : String) : Option SessionKey × SessionStore :=
  match storeLookup store (compositeKey nodeId smartAccountAddress) with
  | none => (none, store)
  | some sessionKey =>
    if now > sessionKey.expiresAt then
      (none, deleteSessionKey store nodeId smartAccountAddress)
    else if !sessionKey.authorized then (none, store)
    else (some sessionKey, store)

/-- `markSessionKeyAuthorized`: set `authorized := true` on the record
under the composite key; report whether a record was found.  The pair is
(returned flag, store after the call). -/
def markSessionKeyAuthorized (store : SessionStore)
    (nodeId smartAccountAddress : String) : Bool × SessionStore :=
  let key := compositeKey nodeId smartAccountAddress
  match storeLookup store key with
  | none => (false, store)
  | some _ =>
    (true, List.map (fun p => if p.1 == key then (p.1, { p.2 with authorized := true }) else p)
      store)

/-- `hasValidSessionKey`: `getSessionKey` result non-null and authorized
(the store mutation `getSessionKey` may perform is discarded, as the JS
function only reads the returned value). -/
def hasValidSessionKey (now : Int) (store : SessionStore)
    (nodeId smartAccountAddress : String) : Bool :=
  match (getSessionKey now store nodeId smartAccountAddress).1 with
  | some sessionKey => sessionKey.authorized
  | none => false

/-- `revokeExpiredSessionKeys` at time `now`: delete every record with
`now > expiresAt` and return how many were removed, with the store after
the sweep. -/
def revokeExpiredSessionKeys (now : Int) (store : SessionStore) : Nat × SessionStore :=
  ((List.filter (fun p => decide (now > p.2.expiresAt)) store).length,
   List.filter (fun p => !decide (now > p.2.expiresAt)) store)

/-- JavaScript `String.prototype.toLowerCase()`, written out over the
character list (the library `String.toLower` is not kernel-reducible). -/
def jsToLowerCase (s : String) : String :=
  { data := s.data.map Char.toLower }

/-- `savePermission` of `PermissionProvider`: store the record under the
lower-cased account address (JS object update, last write wins).  The
record type is opaque to the store, hence a type parameter. -/
def savePermission {α : Type} (permissions : List (String × α)) (newPermission : α)
    (accountAddress : String) : List (String × α) :=
  let normalizedAddress := jsToLowerCase accountAddress
  (normalizedAddress, newPermission) ::
    List.filter (fun p => p.1 != normalizedAddress) permissions

/-- `fetchPermission` of `PermissionProvider`: look the record up under
the lower-cased account address (`permissions[normalizedAddress] || null`). -/
def fetchPermission {α : Type} (permissions : List (String × α))
    (accountAddress : String) : Option α :=
  (List.find? (fun p => p.1 == jsToLowerCase accountAddress) permissions).map Prod.snd

/-- `removePermission` of `PermissionProvider`. -/
def removePermission {α : Type} (permissions : List (String × α))
    (accountAddress : String) : List (String × α) :=
  List.filter (fun p => p.1 != jsToLowerCase accountAddress) permissions

/-- The permission-request body `handleGrantPermission` builds for the
wallet (`requestExecutionPermissions` input).  The period amount is kept
as its pre-parse decimal string: `parseEther` / `parseUnits` belong to
the external library boundary. -/
structure GrantRequest where
  chainId : Nat
  expiry : Int
  signerAddress : String
  permissionType : String
  tokenAddress : Option String := none
  periodAmountStr : String
  tokenDecimals : Nat := 18
  periodDuration : Int
  startTime : Int
  justification : String
  deriving Repr, DecidableEq

/-- `handleGrantPermission` of `TokenPermissionCard.tsx`, as the pure
request-building part: every `throw`/early return becomes an `error`.
The wallet-client presence check and the date-parse (`isNaN`) check are
outside the model (dates are carried already parsed, see the file
header).  `Math.floor(ms / 1000)` is `Int.fdiv`. -/
def handleGrantPermission (tokenNode : WorkflowNode) (smartAccountAddress : String)
    (chainId : Nat) : Except String GrantRequest :=
  if smartAccountAddress = "" then Except.error "Smart account address not found"
  else
    let tokenData := tokenNode.data
    if tokenNode.type == "native-token" then
      let ethAmount := jsOrStr tokenData.amount (jsOrStr tokenData.amountLimit "0.001")
      match tokenData.startTime, tokenData.endTime with
      | some s, some e =>
        let startTimestamp := Int.fdiv s 1000
        let expiry := Int.fdiv e 1000
        let periodDuration := expiry - startTimestamp
        if periodDuration ≤ 0 then Except.error "End time must be after start time"
        else Except.ok
          { chainId := chainId
            expiry := expiry
            signerAddress := smartAccountAddress
            permissionType := "native-token-periodic"
            periodAmountStr := ethAmount
            periodDuration := periodDuration
            startTime := startTimestamp
            justification := "Permission to transfer up to " ++ ethAmount ++ " ETH" }
      | _, _ => Except.error "Start time and end time are required for permissions"
    else
      let tokenAmount := jsOrStr tokenData.amount (jsOrStr tokenData.amountLimit "1")
      let tokenDecimals := match tokenData.decimals with
        | some dec => if dec = 0 then 18 else dec
        | none => 18
      -- `if (!tokenAddress)`: absent or empty string are both falsy
      match tokenData.tokenAddress with
      | none => Except.error "Token contract address is required for ERC-20 permissions"
      | some tokenAddress =>
        if tokenAddress = "" then
          Except.error "Token contract address is required for ERC-20 permissions"
        else
        match tokenData.startTime, tokenData.endTime with
        | some s, some e =>
          let startTimestamp := Int.fdiv s 1000
          let expiry := Int.fdiv e 1000
          let periodDuration := expiry - startTimestamp
          if periodDuration ≤ 0 then Except.error "End time must be after start time"
          else Except.ok
            { chainId := chainId
              expiry := expiry
              signerAddress := smartAccountAddress
              permissionType := "erc20-token-periodic"
              tokenAddress := some tokenAddress
              periodAmountStr := tokenAmount
              tokenDecimals := tokenDecimals
              periodDuration := periodDuration
              startTime := startTimestamp
              justification := "Permission to transfer up to " ++ tokenAmount ++ " " ++
                jsShow tokenData.symbol }
        | _, _ => Except.error "Start time and end time are required for permissions"

/-! ### Concrete instances used by witnesses and counterexamples -/

/-- An authorized session key, expiring at time 100. -/
def skAuth : SessionKey :=
  { privateKey := "pk", publicKey := "pub", address := "0xsess", nodeId := "n"
    smartAccountAddress := "0xacc", createdAt := 0, expiresAt := 100, authorized := true }

/-- The same session key, not yet authorized. -/
def skUnauth : SessionKey := { skAuth with authorized := false }

/-- A one-record session store holding `skAuth`. -/
def storeAuth : SessionStore := [("n-0xacc", skAuth)]

/-- A one-record session store holding `skUnauth`. -/
def storeUnauth : SessionStore := [("n-0xacc", skUnauth)]

/-- Node data with no time window configured. -/
def dNoWindow : NodeData := {}

/-- Node data with a configured window of exactly one day
(86 400 000 ms). -/
def dWindow : NodeData := { startTime := some 1000000, endTime := some 87400000 }

/-- A native scope node whose end time equals its start time. -/
def cGrantNative : WorkflowNode :=
  { id := "nt", type := "native-token"
    data := { startTime := some 5000, endTime := some 5000 } }

/-- Scenario C account node (`erc4337`), with its derived address. -/
def c7account (addr : String) : WorkflowNode :=
  { id := "a", type := "erc4337", data := { smartAccountAddress := some addr } }

/-- Scenario C transfer node. -/
def c7transfer : WorkflowNode := { id := "t", type := "transfer" }

/-- Scenario C swap node. -/
def c7swap : WorkflowNode := { id := "s", type := "swap" }

/-- Scenario C fungible scope node (USDC). -/
def c7fungible : WorkflowNode :=
  { id := "f", type := "erc20-tokens"
    data := { symbol := some "USDC", tokenAddress := some "0xA0b8", amountLimit := some "10" } }

/-- Scenario C native scope node. -/
def c7native : WorkflowNode := { id := "n", type := "native-token" }

/-- Scenario C nodes: Account, Transfer, Swap, FungibleScope, NativeScope. -/
def c7nodes (addr : String) : List WorkflowNode :=
  [c7account addr, c7transfer, c7swap, c7fungible, c7native]

/-- Scenario C edges: Account → Transfer → Swap → [Fungible, Native]. -/
def c7edges : List Edge :=
  [{ source := "a", target := "t" }, { source := "t", target := "s" },
   { source := "s", target := "f" }, { source := "s", target := "n" }]

/-- Scenario C workflow. -/
def c7workflow (addr : String) : Workflow := { nodes := c7nodes addr, edges := c7edges }

/-- A transfer node `t` for the indirect-reachability graph. -/
def c2transfer : WorkflowNode := { id := "t", type := "transfer" }

/-- An intermediate node `p` (neither swap nor scope). -/
def c2middle : WorkflowNode := { id := "p", type := "process" }

/-- A fungible scope node `k` reachable from `t` only through `p`. -/
def c2token : WorkflowNode := { id := "k", type := "erc20-tokens" }

/-- Graph where a scope node is forward-reachable from the transfer
node only through an intermediate non-swap node. -/
def c2nodes : List WorkflowNode := [c2transfer, c2middle, c2token]

/-- Edges t → p → k. -/
def c2edges : List Edge :=
  [{ source := "t", target := "p" }, { source := "p", target := "k" }]

/-- A non-placeholder account node `a`. -/
def c3account : WorkflowNode := { id := "a", type := "erc4337" }

/-- A transfer node `t`. -/
def c3transfer : WorkflowNode := { id := "t", type := "transfer" }

/-- A fungible token node `k`. -/
def c3token : WorkflowNode := { id := "k", type := "erc20-tokens" }

/-- A swap node `s`, not connected to anything. -/
def c3swap : WorkflowNode := { id := "s", type := "swap" }

/-- Direct-pattern nodes plus a disconnected swap node. -/
def c3nodes : List WorkflowNode := [c3account, c3transfer, c3token, c3swap]

/-- Edges a → t → k. -/
def c3edges : List Edge :=
  [{ source := "a", target := "t" }, { source := "t", target := "k" }]

/-- Direct-pattern nodes without any swap node. -/
def c3dnodes : List WorkflowNode := [c3account, c3transfer, c3token]

/-- Edges with only t → k (the a → t edge missing). -/
def c3fedges : List Edge := [{ source := "t", target := "k" }]

/-- The `agent-default` placeholder node of the canvas (an `erc4337`
node that is only a visual stand-in). -/
def c5agent : WorkflowNode := { id := "agent-default", type := "erc4337" }

/-- A transfer node fed by the placeholder. -/
def c5transfer : WorkflowNode := { id := "transfer-1", type := "transfer" }

/-- Graph whose only account-kind node is the placeholder. -/
def c5nodes : List WorkflowNode := [c5agent, c5transfer]

/-- Edge agent-default → transfer-1. -/
def c5edges : List Edge := [{ source := "agent-default", target := "transfer-1" }]

/-- Transfer node of the double-path graph. -/
def c6transfer : WorkflowNode := { id := "t", type := "transfer" }

/-- Swap node of the double-path graph. -/
def c6swap : WorkflowNode := { id := "sw", type := "swap" }

/-- Scope node reachable both directly and via the swap. -/
def c6token : WorkflowNode := { id := "S", type := "erc20-tokens" }

/-- Nodes of the double-path graph. -/
def c6nodes : List WorkflowNode := [c6transfer, c6swap, c6token]

/-- Edges t → S, t → sw, sw → S: the scope node is a direct child of
the transfer node and also a child of the swap node. -/
def c6edges : List Edge :=
  [{ source := "t", target := "S" }, { source := "t", target := "sw" },
   { source := "sw", target := "S" }]

/-- Account node preceding the transfer node in the input list. -/
def c9account : WorkflowNode := { id := "a", type := "erc4337" }

/-- A transfer node sitting at position 1 of the input node list. -/
def c9transfer : WorkflowNode := { id := "t", type := "transfer" }

/-- Input node list with a non-transfer node before the transfer node. -/
def c9nodes : List WorkflowNode := [c9account, c9transfer]

/-- Edge a → t. -/
def c9edges : List Edge := [{ source := "a", target := "t" }]

/-- First transfer node of the gap graph, with no account ancestor
(its context is skipped). -/
def c9gapT1 : WorkflowNode := { id := "t1", type := "transfer" }

/-- Second transfer node of the gap graph, fed by the account node. -/
def c9gapT2 : WorkflowNode := { id := "t2", type := "transfer" }

/-- Gap-graph nodes: the first transfer node is skipped, so the emitted
step numbers start at 2. -/
def c9gapNodes : List WorkflowNode :=
  [{ id := "a", type := "erc4337" }, c9gapT1, c9gapT2]

/-- Gap-graph edges: only a → t2. -/
def c9gapEdges : List Edge := [{ source := "a", target := "t2" }]

/-- The gap-graph workflow. -/
def c9gapWorkflow : Workflow := { nodes := c9gapNodes, edges := c9gapEdges }

end NCP

namespace NCP

/-! ### Theorems -/

/-- Auxiliary: `List.find?` on the post-delete store never hits the
deleted composite key. -/
theorem storeLookup_deleteSessionKey (store : SessionStore) (nid addr : String) :
    storeLookup (deleteSessionKey store nid addr) (compositeKey nid addr) = none := by
  unfold storeLookup deleteSessionKey
  rw [Option.map_eq_none', List.find?_eq_none]
  intro p hp
  have := List.of_mem_filter hp
  simpa using this

/-- C4. `getSessionKey` returns `null` when no record exists under the
composite key; deletes an expired record as a side effect and returns
`null`; returns `null` (store unchanged) for an unexpired, unauthorized
record; and returns the stored record otherwise.  After a `get` on an
expired key, the record is gone from the resulting store, so a
subsequent `revokeExpiredSessionKeys` sweep no longer finds it. -/
theorem getSessionKey_spec :
    (∀ (now : Int) (store : SessionStore) (nid addr : String),
      storeLookup store (compositeKey nid addr) = none →
      getSessionKey now store nid addr = (none, store)) ∧
    (∀ (now : Int) (store : SessionStore) (nid addr : String) (sk : SessionKey),
      storeLookup store (compositeKey nid addr) = some sk →
      now > sk.expiresAt →
      getSessionKey now store nid addr = (none, deleteSessionKey store nid addr) ∧
      storeLookup (getSessionKey now store nid addr).2 (compositeKey nid addr) = none ∧
      storeLookup (revokeExpiredSessionKeys now (getSessionKey now store nid addr).2).2
        (compositeKey nid addr) = none) ∧
    (∀ (now : Int) (store : SessionStore) (nid addr : String) (sk : SessionKey),
      storeLookup store (compositeKey nid addr) = some sk →
      ¬ now > sk.expiresAt → sk.authorized = false →
      getSessionKey now store nid addr = (none, store)) ∧
    (∀ (now : Int) (store : SessionStore) (nid addr : String) (sk : SessionKey),
      storeLookup store (compositeKey nid addr) = some sk →
      ¬ now > sk.expiresAt → sk.authorized = true →
      getSessionKey now store nid addr = (some sk, store)) := by
  refine ⟨?_, ?_, ?_, ?_⟩
  · intro now store nid addr h
    unfold getSessionKey
    rw [h]
  · intro now store nid addr sk h hexp
    have hget : getSessionKey now store nid addr = (none, deleteSessionKey store nid addr) := by
      unfold getSessionKey
      rw [h]
      simp [hexp]
    refine ⟨hget, ?_, ?_⟩
    · rw [hget]
      exact storeLookup_deleteSessionKey store nid addr
    · rw [hget]
      unfold revokeExpiredSessionKeys
      simp only
      unfold storeLookup
      rw [Option.map_eq_none', List.find?_eq_none]
      intro p hp
      have h1 := List.of_mem_filter hp
      have h2 := List.mem_of_mem_filter hp
      have h3 : storeLookup (deleteSessionKey store nid addr) (compositeKey nid addr) = none :=
        storeLookup_deleteSessionKey store nid addr
      unfold storeLookup at h3
      rw [Option.map_eq_none', List.find?_eq_none] at h3
      exact h3 p h2
  · intro now store nid addr sk h hexp hauth
    unfold getSessionKey
    rw [h]
    simp [hexp, hauth]
  · intro now store nid addr sk h hexp hauth
    unfold getSessionKey
    rw [h]
    simp [hexp, hauth]

/-- Witness for C4: on a store holding an authorized key expiring at
100, a read at time 200 deletes the record and a read at time 50
returns it; an unauthorized key reads as `null`. -/
theorem getSessionKey_spec_witness :
    getSessionKey 200 storeAuth "n" "0xacc" = (none, []) ∧
    getSessionKey 50 storeAuth "n" "0xacc" = (some skAuth, storeAuth) ∧
    getSessionKey 50 storeUnauth "n" "0xacc" = (none, storeUnauth) ∧
    getSessionKey 50 [] "n" "0xacc" = (none, []) := by
  refine ⟨?_, ?_, ?_, ?_⟩
  · have h := (getSessionKey_spec.2.1) 200 storeAuth "n" "0xacc" skAuth (by decide) (by decide)
    exact h.1.trans (by decide)
  · exact (getSessionKey_spec.2.2.2) 50 storeAuth "n" "0xacc" skAuth (by decide) (by decide)
      (by decide)
  · exact (getSessionKey_spec.2.2.1) 50 storeUnauth "n" "0xacc" skUnauth (by decide) (by decide)
      (by decide)
  · exact (getSessionKey_spec.1) 50 [] "n" "0xacc" (by decide)

/-- C10. `hasValidSessionKey` is true exactly when `getSessionKey`
returns a record, and `getSessionKey` never returns an unauthorized
record — the extra `authorized` check is redundant. -/
theorem hasValidSessionKey_iff_get_some :
    (∀ (now : Int) (store : SessionStore) (nid addr : String),
      hasValidSessionKey now store nid addr =
        ((getSessionKey now store nid addr).1).isSome) ∧
    (∀ (now : Int) (store : SessionStore) (nid addr : String) (sk : SessionKey),
      (getSessionKey now store nid addr).1 = some sk → sk.authorized = true) := by
  constructor
  · intro now store nid addr
    unfold hasValidSessionKey getSessionKey
    cases h : storeLookup store (compositeKey nid addr) with
    | none => simp
    | some sk =>
      by_cases hexp : now > sk.expiresAt
      · simp [hexp]
      · by_cases hauth : sk.authorized
        · simp [hexp, hauth]
        · simp [hexp, hauth]
  · intro now store nid addr sk h
    unfold getSessionKey at h
    cases hl : storeLookup store (compositeKey nid addr) with
    | none => rw [hl] at h; simp at h
    | some sk' =>
      rw [hl] at h
      by_cases hexp : now > sk'.expiresAt
      · simp [hexp] at h
      · by_cases hauth : sk'.authorized
        · simp [hexp, hauth] at h
          rw [← h]
          exact hauth
        · simp [hexp, hauth] at h

/-- Witness for C10: on a store with a live authorized key,
`getSessionKey` returns it and it is authorized. -/
theorem hasValidSessionKey_iff_get_some_witness :
    skAuth.authorized = true ∧ hasValidSessionKey 50 storeAuth "n" "0xacc" = true := by
  constructor
  · exact (hasValidSessionKey_iff_get_some.2) 50 storeAuth "n" "0xacc" skAuth (by decide)
  · rw [(hasValidSessionKey_iff_get_some.1) 50 storeAuth "n" "0xacc"]
    decide

/-- C8. The permission store is case-insensitive in the key: saving a
record under `k` and fetching under any `k'` with the same case-folding
returns that record. -/
theorem permissionStore_case_insensitive :
    ∀ (α : Type) (perms : List (String × α)) (r : α) (k k' : String),
      jsToLowerCase k = jsToLowerCase k' →
      fetchPermission (savePermission perms r k) k' = some r := by
  intro α perms r k k' h
  unfold fetchPermission savePermission
  simp only [List.find?]
  rw [h]
  simp

/-- Witness for C8: save under `0xABC`, fetch under `0xabc`. -/
theorem permissionStore_case_insensitive_witness :
    fetchPermission (savePermission ([] : List (String × Nat)) 7 "0xABC") "0xabc" = some 7 :=
  permissionStore_case_insensitive Nat [] 7 "0xABC" "0xabc" (by decide)

/-- C1. The derived permission parameters' period duration defaults to
86400 seconds when both time bounds are absent and equals
`(endTime - startTime)` in seconds (milliseconds divided by 1000) when
both are present — for the fungible and the native parameter builders,
which are exactly what `analyzeTransferContext` attaches as
`permissionParams` (fungible first, else native); and
`handleGrantPermission` rejects with an error any scope whose end time
is at or before its start time. -/
theorem periodDuration_default_and_window :
    (∀ d : NodeData, d.startTime = none → d.endTime = none →
      (mkTokenPermissionParams d).periodDuration = some 86400 ∧
      (mkNativePermissionParams d).periodDuration = some 86400) ∧
    (∀ (d : NodeData) (s e : Int), d.startTime = some s → d.endTime = some e →
      (mkTokenPermissionParams d).periodDuration = some (((e : Rat) - (s : Rat)) / 1000) ∧
      (mkNativePermissionParams d).periodDuration = some (((e : Rat) - (s : Rat)) / 1000)) ∧
    (∀ (transferNodeId : String) (nodes : List WorkflowNode) (edges : List Edge)
        (t : WorkflowNode),
      (analyzeTransferContext transferNodeId nodes edges).tokenNode = some t →
      (analyzeTransferContext transferNodeId nodes edges).permissionParams =
        some (mkTokenPermissionParams t.data)) ∧
    (∀ (transferNodeId : String) (nodes : List WorkflowNode) (edges : List Edge)
        (nt : WorkflowNode),
      (analyzeTransferContext transferNodeId nodes edges).tokenNode = none →
      (analyzeTransferContext transferNodeId nodes edges).nativeTokenNode = some nt →
      (analyzeTransferContext transferNodeId nodes edges).permissionParams =
        some (mkNativePermissionParams nt.data)) ∧
    (∀ (tokenNode : WorkflowNode) (addr : String) (chainId : Nat) (s e : Int),
      tokenNode.data.startTime = some s → tokenNode.data.endTime = some e → e ≤ s →
      ∃ msg, handleGrantPermission tokenNode addr chainId = Except.error msg) := by
  refine ⟨?_, ?_, ?_, ?_, ?_⟩
  · intro d h1 h2
    constructor <;> simp [mkTokenPermissionParams, mkNativePermissionParams, h1, h2]
  · intro d s e h1 h2
    constructor <;> simp [mkTokenPermissionParams, mkNativePermissionParams, h1, h2]
  · intro tid nodes edges t h
    cases hf : nodes.find? (fun n => n.id == tid) with
    | none =>
      rw [analyzeTransferContext, hf] at h
      simp at h
    | some tn =>
      rw [analyzeTransferContext, hf] at h ⊢
      simp only at h ⊢
      rw [h]
  · intro tid nodes edges nt h1 h2
    cases hf : nodes.find? (fun n => n.id == tid) with
    | none =>
      rw [analyzeTransferContext, hf] at h2
      simp at h2
    | some tn =>
      rw [analyzeTransferContext, hf] at h1 h2 ⊢
      simp only at h1 h2 ⊢
      rw [h1, h2]
  · intro tokenNode addr chainId s e h1 h2 hle
    by_cases haddr : addr = ""
    · exact ⟨"Smart account address not found", by rw [handleGrantPermission]; simp [haddr]⟩
    · have hfd : Int.fdiv e 1000 - Int.fdiv s 1000 ≤ 0 := by
        have : Int.fdiv e 1000 ≤ Int.fdiv s 1000 := by
          rw [Int.fdiv_eq_ediv _ (by norm_num), Int.fdiv_eq_ediv _ (by norm_num)]
          exact Int.ediv_le_ediv (by norm_num) hle
        omega
      by_cases hty : tokenNode.type == "native-token"
      · refine ⟨"End time must be after start time", ?_⟩
        rw [handleGrantPermission]
        simp only [haddr, if_false, hty, if_true, h1, h2]
        simp [hfd]
      · cases hta : tokenNode.data.tokenAddress with
        | none =>
          refine ⟨"Token contract address is required for ERC-20 permissions", ?_⟩
          rw [handleGrantPermission]
          simp [haddr, hty, hta]
        | some ta =>
          by_cases hta0 : ta = ""
          · refine ⟨"Token contract address is required for ERC-20 permissions", ?_⟩
            rw [handleGrantPermission]
            simp [haddr, hty, hta, hta0]
          · refine ⟨"End time must be after start time", ?_⟩
            rw [handleGrantPermission]
            simp only [haddr, if_false, hty, hta, hta0, h1, h2]
            simp [hfd, hta0]

/-- Witness for C1: concrete instantiations of every conjunct — default
window on empty data, a one-day window, scenario-C analyzer output, and
a grant request with `end = start` being rejected. -/
theorem periodDuration_default_and_window_witness :
    (mkTokenPermissionParams dNoWindow).periodDuration = some 86400 ∧
    (mkTokenPermissionParams dWindow).periodDuration =
      some (((87400000 : Rat) - (1000000 : Rat)) / 1000) ∧
    (analyzeTransferContext "t" (c7nodes "0x1") c7edges).permissionParams =
      some (mkTokenPermissionParams c7fungible.data) ∧
    (∃ msg, handleGrantPermission cGrantNative "0x1" 11155111 = Except.error msg) := by
  refine ⟨?_, ?_, ?_, ?_⟩
  · exact (periodDuration_default_and_window.1 dNoWindow rfl rfl).1
  · exact (periodDuration_default_and_window.2.1 dWindow 1000000 87400000 rfl rfl).1
  · exact periodDuration_default_and_window.2.2.1 "t" (c7nodes "0x1") c7edges c7fungible
      (by decide)
  · exact periodDuration_default_and_window.2.2.2.2 cGrantNative "0x1" 11155111 5000 5000
      rfl rfl (by norm_num)

/-- C7. Scenario C: Account → Transfer → Swap → [FungibleScope,
NativeScope] (account address present) synthesizes a plan with exactly
one step, classified as a fungible (`erc20_transfer`) step. -/
theorem swap_scenario_single_fungible_step (addr : String) :
    (generateExecutionPlan (c7workflow addr)).total_steps = 1 ∧
    ((generateExecutionPlan (c7workflow addr)).execution_steps.map
      (fun st => st.operation)) = ["erc20_transfer"] := by
  constructor <;> rfl

/-- C5 (code bug evaluation). On the graph whose only `erc4337` node is
the `agent-default` placeholder and which connects it to a transfer
node, `analyzeTransferContext` selects the placeholder as the
controlling smart-account node and classifies the operation as an
`eth-transfer` — while `validateWorkflowConnectionOrder`, which does
exclude the placeholder, rejects the same graph for lacking an account
node. -/
theorem analyze_selects_agent_default :
    (analyzeTransferContext "transfer-1" c5nodes c5edges).smartAccountNode = some c5agent ∧
    c5agent.id = "agent-default" ∧
    (analyzeTransferContext "transfer-1" c5nodes c5edges).operationType = "eth-transfer" ∧
    validateWorkflowConnectionOrder c5nodes c5edges =
      { valid := false, reason := some "ERC-4337 Account node is required" } := by
  decide

/-- Counterexample to C2 as stated: on the graph t → p → k the scope
node `k` is forward-reachable from the transfer node (it even sits in
the analyzer's own descendant chain), yet the collected scope-node
lists are empty, because the analyzer only inspects direct children of
the transfer node and of a swap node. -/
theorem scope_collection_not_reachability_cex :
    c2token ∈ childChainOf "t" c2nodes c2edges ∧
    c2token.type = "erc20-tokens" ∧
    (analyzeTransferContext "t" c2nodes c2edges).allTokenNodes = [] ∧
    (analyzeTransferContext "t" c2nodes c2edges).allNativeTokenNodes = [] := by
  decide

/-- Counterexample to C3 as stated: this graph satisfies the claim's
Direct-pattern description (non-placeholder account node, transfer
node, token node, edges a → t and t → k), yet validation fails, because
the graph also contains a (disconnected) swap node, which sends the
validator down the with-swap branch. -/
theorem validate_direct_pattern_cex :
    c3account ∈ c3nodes ∧ c3account.type = "erc4337" ∧ c3account.id ≠ "agent-default" ∧
    c3transfer ∈ c3nodes ∧ c3transfer.type = "transfer" ∧
    c3token ∈ c3nodes ∧ c3token.type = "erc20-tokens" ∧
    ({ source := "a", target := "t" } : Edge) ∈ c3edges ∧
    ({ source := "t", target := "k" } : Edge) ∈ c3edges ∧
    (validateWorkflowConnectionOrder c3nodes c3edges).valid = false ∧
    (validateWorkflowConnectionOrder c3nodes c3edges).reason =
      some "Transfer node must be connected TO Swap node" := by
  decide

/-- Counterexample to C9 as stated: the transfer node sits at position
1 (0-based) of the input node list, so the claim would require its step
number to be 2; the emitted step number is 1, since the index is taken
within the filtered list of transfer-type nodes. -/
theorem step_numbering_cex :
    c9nodes.get? 1 = some c9transfer ∧ c9transfer.type = "transfer" ∧
    (c9nodes.filter (fun n => n.type == "transfer")) = [c9transfer] ∧
    ((generateExecutionPlan { nodes := c9nodes, edges := c9edges }).execution_steps.map
      (fun st => st.step)) = [1] := by
  decide

/-- Auxiliary: the node selected by a `find?` over node ids carries the
id searched for. -/
theorem find?_id_eq {nodes : List WorkflowNode} {cid : String} {c : WorkflowNode}
    (h : nodes.find? (fun n => n.id == cid) = some c) : c.id = cid := by
  have := List.find?_some h
  simpa using this

/-- Auxiliary: one collection step only appends to the scope lists. -/
theorem collectStep_mono (nodes : List WorkflowNode) (acc : TokenAcc) (cid : String) :
    acc.tokens ⊆ (collectStep nodes acc cid).tokens ∧
    acc.natives ⊆ (collectStep nodes acc cid).natives := by
  cases hf : nodes.find? (fun n => n.id == cid) with
  | none =>
    simp only [collectStep, hf]
    exact ⟨fun _ h => h, fun _ h => h⟩
  | some cn =>
    simp only [collectStep, hf]
    by_cases h1 : acc.ids.contains cn.id = true
    · rw [if_pos h1]
      exact ⟨fun _ h => h, fun _ h => h⟩
    · rw [if_neg h1]
      by_cases h2 : (cn.type == "erc20-tokens") = true
      · rw [if_pos h2]
        exact ⟨List.subset_append_left _ _, fun _ h => h⟩
      · rw [if_neg h2]
        by_cases h3 : (cn.type == "native-token") = true
        · rw [if_pos h3]
          exact ⟨fun _ h => h, List.subset_append_left _ _⟩
        · rw [if_neg h3]
          exact ⟨fun _ h => h, fun _ h => h⟩

/-- Auxiliary: the whole collection fold only appends. -/
theorem foldl_collect_mono (nodes : List WorkflowNode) (l : List String) (acc : TokenAcc) :
    acc.tokens ⊆ (l.foldl (collectStep nodes) acc).tokens ∧
    acc.natives ⊆ (l.foldl (collectStep nodes) acc).natives := by
  induction l generalizing acc with
  | nil => exact ⟨fun _ h => h, fun _ h => h⟩
  | cons c l ih =>
    simp only [List.foldl_cons]
    exact ⟨(collectStep_mono nodes acc c).1.trans (ih (collectStep nodes acc c)).1,
           (collectStep_mono nodes acc c).2.trans (ih (collectStep nodes acc c)).2⟩

/-- Auxiliary: a node added by one collection step comes from the
processed child id and has the matching scope kind. -/
theorem collectStep_sound (nodes : List WorkflowNode) (acc : TokenAcc) (cid : String) :
    (∀ x ∈ (collectStep nodes acc cid).tokens,
      x ∈ acc.tokens ∨ (nodes.find? (fun n => n.id == cid) = some x ∧
        x.type = "erc20-tokens")) ∧
    (∀ x ∈ (collectStep nodes acc cid).natives,
      x ∈ acc.natives ∨ (nodes.find? (fun n => n.id == cid) = some x ∧
        x.type = "native-token")) := by
  cases hf : nodes.find? (fun n => n.id == cid) with
  | none =>
    simp only [collectStep, hf]
    exact ⟨fun x hx => Or.inl hx, fun x hx => Or.inl hx⟩
  | some cn =>
    simp only [collectStep, hf]
    by_cases h1 : acc.ids.contains cn.id = true
    · rw [if_pos h1]
      exact ⟨fun x hx => Or.inl hx, fun x hx => Or.inl hx⟩
    · rw [if_neg h1]
      by_cases h2 : (cn.type == "erc20-tokens") = true
      · rw [if_pos h2]
        refine ⟨fun x hx => ?_, fun x hx => Or.inl hx⟩
        rcases List.mem_append.1 hx with h | h
        · exact Or.inl h
        · rw [List.mem_singleton] at h
          subst h
          exact Or.inr ⟨rfl, by simpa using h2⟩
      · rw [if_neg h2]
        by_cases h3 : (cn.type == "native-token") = true
        · rw [if_pos h3]
          refine ⟨fun x hx => Or.inl hx, fun x hx => ?_⟩
          rcases List.mem_append.1 hx with h | h
          · exact Or.inl h
          · rw [List.mem_singleton] at h
            subst h
            exact Or.inr ⟨rfl, by simpa using h3⟩
        · rw [if_neg h3]
          exact ⟨fun x hx => Or.inl hx, fun x hx => Or.inl hx⟩

/-- Auxiliary: a node in the folded scope lists either was already
there or comes from one of the processed child ids, with matching kind. -/
theorem foldl_collect_sound (nodes : List WorkflowNode) (l : List String) (acc : TokenAcc) :
    (∀ x ∈ (l.foldl (collectStep nodes) acc).tokens,
      x ∈ acc.tokens ∨ ∃ cid ∈ l, nodes.find? (fun n => n.id == cid) = some x ∧
        x.type = "erc20-tokens") ∧
    (∀ x ∈ (l.foldl (collectStep nodes) acc).natives,
      x ∈ acc.natives ∨ ∃ cid ∈ l, nodes.find? (fun n => n.id == cid) = some x ∧
        x.type = "native-token") := by
  induction l generalizing acc with
  | nil => exact ⟨fun x hx => Or.inl hx, fun x hx => Or.inl hx⟩
  | cons c l ih =>
    simp only [List.foldl_cons]
    constructor
    · intro x hx
      rcases (ih (collectStep nodes acc c)).1 x hx with h | ⟨cid, hcid, hfind, hty⟩
      · rcases (collectStep_sound nodes acc c).1 x h with h' | ⟨hfind, hty⟩
        · exact Or.inl h'
        · exact Or.inr ⟨c, List.mem_cons_self c l, hfind, hty⟩
      · exact Or.inr ⟨cid, List.mem_cons_of_mem c hcid, hfind, hty⟩
    · intro x hx
      rcases (ih (collectStep nodes acc c)).2 x hx with h | ⟨cid, hcid, hfind, hty⟩
      · rcases (collectStep_sound nodes acc c).2 x h with h' | ⟨hfind, hty⟩
        · exact Or.inl h'
        · exact Or.inr ⟨c, List.mem_cons_self c l, hfind, hty⟩
      · exact Or.inr ⟨cid, List.mem_cons_of_mem c hcid, hfind, hty⟩

/-- Auxiliary: the dedup id set grows by at most the processed id. -/
theorem collectStep_ids_sub (nodes : List WorkflowNode) (acc : TokenAcc) (cid : String) :
    (collectStep nodes acc cid).ids ⊆ cid :: acc.ids := by
  cases hf : nodes.find? (fun n => n.id == cid) with
  | none =>
    simp only [collectStep, hf]
    exact fun a ha => List.mem_cons_of_mem _ ha
  | some cn =>
    simp only [collectStep, hf]
    have hcn : cn.id = cid := find?_id_eq hf
    by_cases h1 : acc.ids.contains cn.id = true
    · rw [if_pos h1]
      exact fun a ha => List.mem_cons_of_mem _ ha
    · rw [if_neg h1]
      by_cases h2 : (cn.type == "erc20-tokens") = true
      · rw [if_pos h2]
        intro a ha
        rcases List.mem_cons.1 ha with h | h
        · subst h
          rw [hcn]
          exact List.mem_cons_self _ _
        · exact List.mem_cons_of_mem _ h
      · rw [if_neg h2]
        by_cases h3 : (cn.type == "native-token") = true
        · rw [if_pos h3]
          intro a ha
          rcases List.mem_cons.1 ha with h | h
          · subst h
            rw [hcn]
            exact List.mem_cons_self _ _
          · exact List.mem_cons_of_mem _ h
        · rw [if_neg h3]
          exact fun a ha => List.mem_cons_of_mem _ ha

/-- Auxiliary: a scope node whose id is among the processed child ids
ends up in the list matching its kind. -/
theorem foldl_collect_complete (nodes : List WorkflowNode) (l : List String) (acc : TokenAcc)
    (S : WorkflowNode) (hfind : nodes.find? (fun n => n.id == S.id) = some S)
    (hP : S.id ∈ acc.ids →
      (S.type = "erc20-tokens" → S ∈ acc.tokens) ∧
      (S.type = "native-token" → S ∈ acc.natives))
    (hmem : S.id ∈ l) :
    (S.type = "erc20-tokens" → S ∈ (l.foldl (collectStep nodes) acc).tokens) ∧
    (S.type = "native-token" → S ∈ (l.foldl (collectStep nodes) acc).natives) := by
  induction l generalizing acc with
  | nil => exact absurd hmem (List.not_mem_nil _)
  | cons c l ih =>
    simp only [List.foldl_cons]
    by_cases hc : c = S.id
    · subst hc
      have hstep : (S.type = "erc20-tokens" → S ∈ (collectStep nodes acc S.id).tokens) ∧
          (S.type = "native-token" → S ∈ (collectStep nodes acc S.id).natives) := by
        simp only [collectStep, hfind]
        by_cases h1 : acc.ids.contains S.id = true
        · rw [if_pos h1]
          exact hP (by simpa using h1)
        · rw [if_neg h1]
          constructor
          · intro hty
            have h2 : (S.type == "erc20-tokens") = true := by simpa using hty
            rw [if_pos h2]
            simp
          · intro hty
            have h2 : ¬ ((S.type == "erc20-tokens") = true) := by simp [hty]
            rw [if_neg h2]
            have h3 : (S.type == "native-token") = true := by simpa using hty
            rw [if_pos h3]
            simp
      exact ⟨fun hty => (foldl_collect_mono nodes l _).1 (hstep.1 hty),
             fun hty => (foldl_collect_mono nodes l _).2 (hstep.2 hty)⟩
    · have hmem' : S.id ∈ l := by
        rcases List.mem_cons.1 hmem with h | h
        · exact absurd h.symm hc
        · exact h
      refine ih (collectStep nodes acc c) ?_ hmem'
      intro hids
      rcases List.mem_cons.1 (collectStep_ids_sub nodes acc c hids) with h | h
      · exact absurd h.symm hc
      · exact ⟨fun hty => (collectStep_mono nodes acc c).1 ((hP h).1 hty),
               fun hty => (collectStep_mono nodes acc c).2 ((hP h).2 hty)⟩

/-- Auxiliary: one collection step preserves the invariant that the
collected ids are pairwise distinct and recorded in the dedup set. -/
theorem collectStep_inv (nodes : List WorkflowNode) (acc : TokenAcc) (cid : String)
    (hnd : ((acc.tokens ++ acc.natives).map (fun n => n.id)).Nodup)
    (hids : ∀ x ∈ acc.tokens ++ acc.natives, x.id ∈ acc.ids) :
    (((collectStep nodes acc cid).tokens ++ (collectStep nodes acc cid).natives).map
      (fun n => n.id)).Nodup ∧
    ∀ x ∈ (collectStep nodes acc cid).tokens ++ (collectStep nodes acc cid).natives,
      x.id ∈ (collectStep nodes acc cid).ids := by
  cases hf : nodes.find? (fun n => n.id == cid) with
  | none =>
    simp only [collectStep, hf]
    exact ⟨hnd, hids⟩
  | some cn =>
    simp only [collectStep, hf]
    by_cases h1 : acc.ids.contains cn.id = true
    · rw [if_pos h1]
      exact ⟨hnd, hids⟩
    · rw [if_neg h1]
      have hnotmem : cn.id ∉ acc.ids := by simpa using h1
      have hnotid : ∀ x ∈ acc.tokens ++ acc.natives, x.id ≠ cn.id := by
        intro x hx heq
        exact hnotmem (heq ▸ hids x hx)
      by_cases h2 : (cn.type == "erc20-tokens") = true
      · rw [if_pos h2]
        constructor
        · have e1 : ((acc.tokens ++ [cn]) ++ acc.natives).map (fun n => n.id) =
              (acc.tokens.map (fun n => n.id)) ++ cn.id :: (acc.natives.map (fun n => n.id)) := by
            simp
          rw [e1, List.nodup_middle, List.nodup_cons]
          constructor
          · intro hmem
            rw [← List.map_append] at hmem
            rcases List.mem_map.1 hmem with ⟨x, hx, hxid⟩
            exact hnotid x hx hxid
          · rw [← List.map_append]
            exact hnd
        · intro x hx
          rcases List.mem_append.1 hx with h | h
          · rcases List.mem_append.1 h with h' | h'
            · exact List.mem_cons_of_mem _ (hids x (List.mem_append_left _ h'))
            · rw [List.mem_singleton] at h'
              subst h'
              exact List.mem_cons_self _ _
          · exact List.mem_cons_of_mem _ (hids x (List.mem_append_right _ h))
      · rw [if_neg h2]
        by_cases h3 : (cn.type == "native-token") = true
        · rw [if_pos h3]
          constructor
          · have e1 : (acc.tokens ++ (acc.natives ++ [cn])).map (fun n => n.id) =
                ((acc.tokens ++ acc.natives).map (fun n => n.id)) ++ cn.id :: [] := by
              simp
            rw [e1, List.nodup_middle, List.nodup_cons]
            constructor
            · intro hmem
              rw [List.append_nil] at hmem
              rcases List.mem_map.1 hmem with ⟨x, hx, hxid⟩
              exact hnotid x hx hxid
            · rw [List.append_nil]
              exact hnd
          · intro x hx
            rcases List.mem_append.1 hx with h | h
            · exact List.mem_cons_of_mem _ (hids x (List.mem_append_left _ h))
            · rcases List.mem_append.1 h with h' | h'
              · exact List.mem_cons_of_mem _ (hids x (List.mem_append_right _ h'))
              · rw [List.mem_singleton] at h'
                subst h'
                exact List.mem_cons_self _ _
        · rw [if_neg h3]
          exact ⟨hnd, hids⟩

/-- Auxiliary: the collection fold preserves the dedup invariant. -/
theorem foldl_collect_inv (nodes : List WorkflowNode) (l : List String) (acc : TokenAcc)
    (hnd : ((acc.tokens ++ acc.natives).map (fun n => n.id)).Nodup)
    (hids : ∀ x ∈ acc.tokens ++ acc.natives, x.id ∈ acc.ids) :
    (((l.foldl (collectStep nodes) acc).tokens ++
      (l.foldl (collectStep nodes) acc).natives).map (fun n => n.id)).Nodup ∧
    ∀ x ∈ (l.foldl (collectStep nodes) acc).tokens ++
        (l.foldl (collectStep nodes) acc).natives,
      x.id ∈ (l.foldl (collectStep nodes) acc).ids := by
  induction l generalizing acc with
  | nil => exact ⟨hnd, hids⟩
  | cons c l ih =>
    simp only [List.foldl_cons]
    exact ih (collectStep nodes acc c) (collectStep_inv nodes acc c hnd hids).1
      (collectStep_inv nodes acc c hnd hids).2

/-- Auxiliary: the scope lists the analyzer builds carry pairwise
distinct node ids. -/
theorem scopeAcc_nodup (tid : String) (nodes : List WorkflowNode) (edges : List Edge) :
    (((scopeAccOf tid nodes edges).tokens ++ (scopeAccOf tid nodes edges).natives).map
      (fun n => n.id)).Nodup := by
  cases hsw : swapNodeOf tid nodes edges with
  | none =>
    simp only [scopeAccOf, hsw]
    exact (foldl_collect_inv nodes _ {} (by simp) (by simp)).1
  | some sw =>
    simp only [scopeAccOf, hsw]
    have h1 := foldl_collect_inv nodes (findChildNodes tid edges) {} (by simp) (by simp)
    exact (foldl_collect_inv nodes _ _ h1.1 h1.2).1

/-- Auxiliary: when the transfer node resolves, the analyzer's scope
lists are exactly the collected accumulator. -/
theorem analyze_scope_lists (tid : String) (nodes : List WorkflowNode) (edges : List Edge)
    (h : (nodes.find? (fun n => n.id == tid)).isSome) :
    (analyzeTransferContext tid nodes edges).allTokenNodes =
      (scopeAccOf tid nodes edges).tokens ∧
    (analyzeTransferContext tid nodes edges).allNativeTokenNodes =
      (scopeAccOf tid nodes edges).natives := by
  obtain ⟨tn, htn⟩ := Option.isSome_iff_exists.1 h
  simp only [analyzeTransferContext, htn]
  exact ⟨trivial, trivial⟩

/-- Auxiliary: every id recorded in the dedup set resolves (via
`find?`) to a node already collected in the list matching its kind. -/
theorem collectStep_ids_inv (nodes : List WorkflowNode) (acc : TokenAcc) (cid : String)
    (hinv : ∀ i ∈ acc.ids, ∃ x, nodes.find? (fun n => n.id == i) = some x ∧
      (x.type = "erc20-tokens" → x ∈ acc.tokens) ∧
      (x.type = "native-token" → x ∈ acc.natives)) :
    ∀ i ∈ (collectStep nodes acc cid).ids,
      ∃ x, nodes.find? (fun n => n.id == i) = some x ∧
        (x.type = "erc20-tokens" → x ∈ (collectStep nodes acc cid).tokens) ∧
        (x.type = "native-token" → x ∈ (collectStep nodes acc cid).natives) := by
  cases hf : nodes.find? (fun n => n.id == cid) with
  | none =>
    simp only [collectStep, hf]
    exact hinv
  | some cn =>
    simp only [collectStep, hf]
    have hcn : cn.id = cid := find?_id_eq hf
    by_cases h1 : acc.ids.contains cn.id = true
    · rw [if_pos h1]
      exact hinv
    · rw [if_neg h1]
      by_cases h2 : (cn.type == "erc20-tokens") = true
      · rw [if_pos h2]
        intro i hi
        rcases List.mem_cons.1 hi with h | h
        · subst h
          refine ⟨cn, ?_, fun _ => by simp, ?_⟩
          · rw [hcn]
            exact hf
          · intro hty
            have h2' : cn.type = "erc20-tokens" := by simpa using h2
            rw [h2'] at hty
            exact absurd hty (by decide)
        · rcases hinv i h with ⟨x, hfx, hx1, hx2⟩
          exact ⟨x, hfx, fun hty => List.mem_append_left _ (hx1 hty), hx2⟩
      · rw [if_neg h2]
        by_cases h3 : (cn.type == "native-token") = true
        · rw [if_pos h3]
          intro i hi
          rcases List.mem_cons.1 hi with h | h
          · subst h
            refine ⟨cn, ?_, ?_, fun _ => by simp⟩
            · rw [hcn]
              exact hf
            · intro hty
              have h3' : cn.type = "native-token" := by simpa using h3
              rw [h3'] at hty
              exact absurd hty (by decide)
          · rcases hinv i h with ⟨x, hfx, hx1, hx2⟩
            exact ⟨x, hfx, hx1, fun hty => List.mem_append_left _ (hx2 hty)⟩
        · rw [if_neg h3]
          exact hinv

/-- Auxiliary: the collection fold preserves the id/record
correspondence of `collectStep_ids_inv`. -/
theorem foldl_collect_ids_inv (nodes : List WorkflowNode) (l : List String) (acc : TokenAcc)
    (hinv : ∀ i ∈ acc.ids, ∃ x, nodes.find? (fun n => n.id == i) = some x ∧
      (x.type = "erc20-tokens" → x ∈ acc.tokens) ∧
      (x.type = "native-token" → x ∈ acc.natives)) :
    ∀ i ∈ (l.foldl (collectStep nodes) acc).ids,
      ∃ x, nodes.find? (fun n => n.id == i) = some x ∧
        (x.type = "erc20-tokens" → x ∈ (l.foldl (collectStep nodes) acc).tokens) ∧
        (x.type = "native-token" → x ∈ (l.foldl (collectStep nodes) acc).natives) := by
  induction l generalizing acc with
  | nil => exact hinv
  | cons c l ih =>
    simp only [List.foldl_cons]
    exact ih (collectStep nodes acc c) (collectStep_ids_inv nodes acc c hinv)

/-- C2 (amended). For every graph whose transfer node resolves, the
scope lists collected by `analyzeTransferContext` contain exactly the
fungible/native scope nodes that are immediate children of the
Transfer node or immediate children of the swap node found in its
descendant chain — every such child is collected (first two conjuncts),
only such children appear (third conjunct), and the collected node ids
are pairwise distinct (fourth conjunct); a scope node reachable solely
through other intermediate nodes is not collected (see the
counterexample). -/
theorem scope_collection_direct_children (tid : String) (nodes : List WorkflowNode)
    (edges : List Edge) (htn : (nodes.find? (fun n => n.id == tid)).isSome) :
    (∀ (cid : String) (c : WorkflowNode),
      cid ∈ findChildNodes tid edges →
      nodes.find? (fun n => n.id == cid) = some c →
      (c.type = "erc20-tokens" →
        c ∈ (analyzeTransferContext tid nodes edges).allTokenNodes) ∧
      (c.type = "native-token" →
        c ∈ (analyzeTransferContext tid nodes edges).allNativeTokenNodes)) ∧
    (∀ (cid : String) (c sw : WorkflowNode),
      swapNodeOf tid nodes edges = some sw →
      cid ∈ findChildNodes sw.id edges →
      nodes.find? (fun n => n.id == cid) = some c →
      (c.type = "erc20-tokens" →
        c ∈ (analyzeTransferContext tid nodes edges).allTokenNodes) ∧
      (c.type = "native-token" →
        c ∈ (analyzeTransferContext tid nodes edges).allNativeTokenNodes)) ∧
    (∀ x, x ∈ (analyzeTransferContext tid nodes edges).allTokenNodes ++
        (analyzeTransferContext tid nodes edges).allNativeTokenNodes →
      ∃ cid, nodes.find? (fun n => n.id == cid) = some x ∧
        (cid ∈ findChildNodes tid edges ∨
          ∃ sw, swapNodeOf tid nodes edges = some sw ∧
            cid ∈ findChildNodes sw.id edges)) ∧
    (((analyzeTransferContext tid nodes edges).allTokenNodes ++
      (analyzeTransferContext tid nodes edges).allNativeTokenNodes).map
        (fun n => n.id)).Nodup := by
  obtain ⟨he1, he2⟩ := analyze_scope_lists tid nodes edges htn
  refine ⟨?_, ?_, ?_, ?_⟩
  · intro cid c hcid hfc
    have hcideq : c.id = cid := find?_id_eq hfc
    subst hcideq
    rw [he1, he2]
    cases hsw : swapNodeOf tid nodes edges with
    | none =>
      simp only [scopeAccOf, hsw]
      exact foldl_collect_complete nodes _ {} c hfc (by intro h; simp at h) hcid
    | some sw =>
      simp only [scopeAccOf, hsw]
      have h1 := foldl_collect_complete nodes (findChildNodes tid edges) {} c hfc
        (by intro h; simp at h) hcid
      exact ⟨fun hty => (foldl_collect_mono nodes _ _).1 (h1.1 hty),
             fun hty => (foldl_collect_mono nodes _ _).2 (h1.2 hty)⟩
  · intro cid c sw hsw hcid hfc
    have hcideq : c.id = cid := find?_id_eq hfc
    subst hcideq
    rw [he1, he2]
    simp only [scopeAccOf, hsw]
    refine foldl_collect_complete nodes (findChildNodes sw.id edges) _ c hfc ?_ hcid
    intro hid
    rcases foldl_collect_ids_inv nodes (findChildNodes tid edges) {}
        (by intro i hi; simp at hi) c.id hid with ⟨x, hfx, hx1, hx2⟩
    rw [hfc] at hfx
    cases hfx
    exact ⟨hx1, hx2⟩
  · intro x hx
    rw [he1, he2] at hx
    cases hsw : swapNodeOf tid nodes edges with
    | none =>
      simp only [scopeAccOf, hsw] at hx
      rcases List.mem_append.1 hx with h | h
      · rcases (foldl_collect_sound nodes _ {}).1 x h with h' | ⟨cid, hcid, hf2, _⟩
        · simp at h'
        · exact ⟨cid, hf2, Or.inl hcid⟩
      · rcases (foldl_collect_sound nodes _ {}).2 x h with h' | ⟨cid, hcid, hf2, _⟩
        · simp at h'
        · exact ⟨cid, hf2, Or.inl hcid⟩
    | some sw =>
      simp only [scopeAccOf, hsw] at hx
      rcases List.mem_append.1 hx with h | h
      · rcases (foldl_collect_sound nodes _ _).1 x h with h' | ⟨cid, hcid, hf2, _⟩
        · rcases (foldl_collect_sound nodes _ {}).1 x h' with h'' | ⟨cid, hcid, hf2, _⟩
          · simp at h''
          · exact ⟨cid, hf2, Or.inl hcid⟩
        · exact ⟨cid, hf2, Or.inr ⟨sw, rfl, hcid⟩⟩
      · rcases (foldl_collect_sound nodes _ _).2 x h with h' | ⟨cid, hcid, hf2, _⟩
        · rcases (foldl_collect_sound nodes _ {}).2 x h' with h'' | ⟨cid, hcid, hf2, _⟩
          · simp at h''
          · exact ⟨cid, hf2, Or.inl hcid⟩
        · exact ⟨cid, hf2, Or.inr ⟨sw, rfl, hcid⟩⟩
  · rw [he1, he2]
    exact scopeAcc_nodup tid nodes edges

/-- Witness for C2 (amended): on the double-path graph the immediate
child of the transfer node is collected; on the scenario-C graph the
fungible node, an immediate child of the swap only, is collected, and
the collected ids are pairwise distinct. -/
theorem scope_collection_direct_children_witness :
    c6token ∈ (analyzeTransferContext "t" c6nodes c6edges).allTokenNodes ∧
    c7fungible ∈ (analyzeTransferContext "t" (c7nodes "0x1") c7edges).allTokenNodes ∧
    (((analyzeTransferContext "t" (c7nodes "0x1") c7edges).allTokenNodes ++
      (analyzeTransferContext "t" (c7nodes "0x1") c7edges).allNativeTokenNodes).map
        (fun n => n.id)).Nodup := by
  refine ⟨?_, ?_, ?_⟩
  · exact ((scope_collection_direct_children "t" c6nodes c6edges (by decide)).1 "S" c6token
      (by decide) (by decide)).1 rfl
  · exact ((scope_collection_direct_children "t" (c7nodes "0x1") c7edges (by decide)).2.1
      "f" c7fungible c7swap (by decide) (by decide) (by decide)).1 rfl
  · exact (scope_collection_direct_children "t" (c7nodes "0x1") c7edges (by decide)).2.2.2

/-- C6. A scope node that is an immediate child of the Transfer node
and also a child of the swap node found downstream appears exactly once
in the collected scope-node lists. -/
theorem scope_dedup_exactly_once (tid : String) (nodes : List WorkflowNode)
    (edges : List Edge) (S : WorkflowNode)
    (htn : (nodes.find? (fun n => n.id == tid)).isSome)
    (hfind : nodes.find? (fun n => n.id == S.id) = some S)
    (hty : S.type = "erc20-tokens" ∨ S.type = "native-token")
    (hdirect : S.id ∈ findChildNodes tid edges)
    (_hviaswap : ∃ sw, swapNodeOf tid nodes edges = some sw ∧
      S.id ∈ findChildNodes sw.id edges) :
    List.countP (fun x => x.id == S.id)
      ((analyzeTransferContext tid nodes edges).allTokenNodes ++
        (analyzeTransferContext tid nodes edges).allNativeTokenNodes) = 1 := by
  obtain ⟨he1, he2⟩ := analyze_scope_lists tid nodes edges htn
  rw [he1, he2]
  have hmem : S ∈ (scopeAccOf tid nodes edges).tokens ++
      (scopeAccOf tid nodes edges).natives := by
    cases hsw : swapNodeOf tid nodes edges with
    | none =>
      simp only [scopeAccOf, hsw]
      have h1 := foldl_collect_complete nodes _ {} S hfind (by intro h; simp at h) hdirect
      rcases hty with h | h
      · exact List.mem_append_left _ (h1.1 h)
      · exact List.mem_append_right _ (h1.2 h)
    | some sw =>
      simp only [scopeAccOf, hsw]
      have h1 := foldl_collect_complete nodes (findChildNodes tid edges) {} S hfind
        (by intro h; simp at h) hdirect
      rcases hty with h | h
      · exact List.mem_append_left _ ((foldl_collect_mono nodes _ _).1 (h1.1 h))
      · exact List.mem_append_right _ ((foldl_collect_mono nodes _ _).2 (h1.2 h))
  have hnd := scopeAcc_nodup tid nodes edges
  have e : List.countP (fun x => x.id == S.id)
      ((scopeAccOf tid nodes edges).tokens ++ (scopeAccOf tid nodes edges).natives) =
      List.count S.id (((scopeAccOf tid nodes edges).tokens ++
        (scopeAccOf tid nodes edges).natives).map (fun n => n.id)) := by
    rw [List.count_eq_countP, List.countP_map]
    rfl
  rw [e]
  have hle := List.nodup_iff_count_le_one.1 hnd S.id
  have hge : 1 ≤ List.count S.id (((scopeAccOf tid nodes edges).tokens ++
      (scopeAccOf tid nodes edges).natives).map (fun n => n.id)) :=
    List.one_le_count_iff.2 (List.mem_map.2 ⟨S, hmem, rfl⟩)
  omega

/-- Witness for C6: on the double-path graph t → S, t → sw, sw → S the
scope node appears exactly once. -/
theorem scope_dedup_exactly_once_witness :
    List.countP (fun x => x.id == c6token.id)
      ((analyzeTransferContext "t" c6nodes c6edges).allTokenNodes ++
        (analyzeTransferContext "t" c6nodes c6edges).allNativeTokenNodes) = 1 := by
  exact scope_dedup_exactly_once "t" c6nodes c6edges c6token (by decide) (by decide)
    (Or.inl rfl) (by decide) ⟨c6swap, by decide, by decide⟩

/-- C3 (amended). When the validator's selected non-placeholder account
node `A` and transfer node `T` are joined by an edge A → T, at least
one token node hangs off `T`, and the graph has no swap node, the
validator succeeds with pattern `direct` and the count of token nodes
connected to `T`; and whenever `A` and `T` exist with at least one
token node but no A → T edge, it fails citing exactly that edge. -/
theorem validate_direct_pattern :
    (∀ (nodes : List WorkflowNode) (edges : List Edge) (A T : WorkflowNode),
      nodes.find? isAccountNode = some A →
      nodes.find? (fun n => n.type == "transfer") = some T →
      nodes.find? (fun n => n.type == "swap") = none →
      (edges.find? (fun e => e.source == A.id && e.target == T.id)).isSome →
      ((tokenNodesOf nodes).filter (fun token =>
        edges.any (fun e => e.source == T.id && e.target == token.id))) ≠ [] →
      validateWorkflowConnectionOrder nodes edges =
        { valid := true
          details := some
            { order := some (A.id ++ " → " ++ T.id ++ " → [" ++
                toString ((tokenNodesOf nodes).filter (fun token =>
                  edges.any (fun e => e.source == T.id && e.target == token.id))).length ++
                " token(s)]")
              pattern := some "direct"
              tokenCount := some ((tokenNodesOf nodes).filter (fun token =>
                edges.any (fun e => e.source == T.id && e.target == token.id))).length } }) ∧
    (∀ (nodes : List WorkflowNode) (edges : List Edge) (A T : WorkflowNode),
      nodes.find? isAccountNode = some A →
      nodes.find? (fun n => n.type == "transfer") = some T →
      tokenNodesOf nodes ≠ [] →
      edges.find? (fun e => e.source == A.id && e.target == T.id) = none →
      validateWorkflowConnectionOrder nodes edges =
        { valid := false
          reason := some "ERC-4337 Account must be connected TO Transfer node"
          details := some { expected := some (A.id ++ " → " ++ T.id)
                            found := some "Connection missing" } }) := by
  constructor
  · intro nodes edges A T hA hT hS hE hTok
    obtain ⟨ed, hed⟩ := Option.isSome_iff_exists.1 hE
    have hne : ¬ ((tokenNodesOf nodes).isEmpty = true) := by
      rw [List.isEmpty_iff]
      intro h
      rw [h] at hTok
      simp at hTok
    have hne2 : ¬ (((tokenNodesOf nodes).filter (fun token =>
        edges.any (fun e => e.source == T.id && e.target == token.id))).isEmpty = true) := by
      rw [List.isEmpty_iff]
      exact hTok
    simp only [validateWorkflowConnectionOrder, hA, hT, hS, hed, if_neg hne, if_neg hne2]
  · intro nodes edges A T hA hT hTok hE
    have hne : ¬ ((tokenNodesOf nodes).isEmpty = true) := by
      rw [List.isEmpty_iff]
      exact hTok
    simp only [validateWorkflowConnectionOrder, hA, hT, hE, if_neg hne]

/-- Witness for C3 (amended): the direct-pattern graph a → t → k with
no swap node validates as `direct` with one token; removing the a → t
edge yields the failure citing `a → t`. -/
theorem validate_direct_pattern_witness :
    validateWorkflowConnectionOrder c3dnodes c3edges =
      { valid := true
        details := some { order := some "a → t → [1 token(s)]"
                          pattern := some "direct"
                          tokenCount := some 1 } } ∧
    validateWorkflowConnectionOrder c3dnodes c3fedges =
      { valid := false
        reason := some "ERC-4337 Account must be connected TO Transfer node"
        details := some { expected := some "a → t"
                          found := some "Connection missing" } } := by
  constructor
  · have h := validate_direct_pattern.1 c3dnodes c3edges c3account c3transfer
      (by decide) (by decide) (by decide) (by decide) (by decide)
    rw [h]
    decide
  · have h := validate_direct_pattern.2 c3dnodes c3fedges c3account c3transfer
      (by decide) (by decide) (by decide) (by decide)
    rw [h]
    decide

/-- Auxiliary: an emitted step's number is one more than the index the
plan loop supplied. -/
theorem stepForTransfer_step_eq (nodes : List WorkflowNode) (edges : List Edge)
    (i : Nat) (tn : WorkflowNode) (st : ExecStep)
    (h : stepForTransfer nodes edges i tn = some st) : st.step = i + 1 := by
  simp only [stepForTransfer] at h
  split at h
  · cases h
    rfl
  · split at h
    · cases h
      rfl
    · split at h
      · cases h
        rfl
      · exact Option.noConfusion h

/-- Auxiliary: indices in `enumFrom` are pairwise increasing. -/
theorem pairwise_fst_enumFrom {α : Type} (l : List α) :
    ∀ n : Nat, List.Pairwise (fun p q : Nat × α => p.1 < q.1) (l.enumFrom n) := by
  induction l with
  | nil =>
    intro n
    simp
  | cons a l ih =>
    intro n
    refine List.Pairwise.cons ?_ (ih (n + 1))
    intro q hq
    obtain ⟨i, x⟩ := q
    have h := List.mem_enumFrom hq
    exact Nat.lt_of_lt_of_le (Nat.lt_succ_self n) h.1

/-- Auxiliary: steps harvested from index-increasing pairs carry
strictly increasing step numbers. -/
theorem steps_pairwise_aux (nodes : List WorkflowNode) (edges : List Edge)
    (l : List (Nat × WorkflowNode))
    (hp : List.Pairwise (fun p q : Nat × WorkflowNode => p.1 < q.1) l) :
    List.Pairwise (· < ·)
      ((l.filterMap (fun p => stepForTransfer nodes edges p.1 p.2)).map
        (fun st => st.step)) := by
  induction l with
  | nil => simp
  | cons p l ih =>
    cases hp with
    | cons hpl hp' =>
      cases hpp : stepForTransfer nodes edges p.1 p.2 with
      | none =>
        simp only [List.filterMap_cons, hpp]
        exact ih hp'
      | some st =>
        simp only [List.filterMap_cons, hpp, List.map_cons]
        refine List.Pairwise.cons ?_ (ih hp')
        intro y hy
        rcases List.mem_map.1 hy with ⟨st', hst', rfl⟩
        rcases List.mem_filterMap.1 hst' with ⟨q, hq, hfq⟩
        have h1 := stepForTransfer_step_eq nodes edges p.1 p.2 st hpp
        have h2 := stepForTransfer_step_eq nodes edges q.1 q.2 st' hfq
        have h3 := hpl q hq
        omega

/-- C9 (amended). Each emitted step's number is 1 plus the index of its
transfer node among the transfer-type nodes of the input list (not a
consecutive counter over emitted steps, and not the position in the
full input node list): step numbers strictly increase and may skip
values when an earlier transfer context is skipped (concrete gap
instance included), while `total_steps` counts only emitted steps and
`has_executable_steps` holds iff at least one step was emitted. -/
theorem step_numbering_spec :
    (∀ (nodes : List WorkflowNode) (edges : List Edge) (i : Nat) (tn : WorkflowNode)
        (st : ExecStep),
      stepForTransfer nodes edges i tn = some st → st.step = i + 1) ∧
    (∀ w : Workflow, (generateExecutionPlan w).execution_steps =
        ((w.nodes.filter (fun n => n.type == "transfer")).enum).filterMap
          (fun p => stepForTransfer w.nodes w.edges p.1 p.2)) ∧
    (∀ w : Workflow, List.Pairwise (· < ·)
      ((generateExecutionPlan w).execution_steps.map (fun st => st.step))) ∧
    (∀ w : Workflow,
      (generateExecutionPlan w).total_steps =
        (generateExecutionPlan w).execution_steps.length ∧
      (generateExecutionPlan w).has_executable_steps =
        !(generateExecutionPlan w).execution_steps.isEmpty) ∧
    (((generateExecutionPlan c9gapWorkflow).execution_steps.map
        (fun st => st.step)) = [2] ∧
      (generateExecutionPlan c9gapWorkflow).total_steps = 1 ∧
      (generateExecutionPlan c9gapWorkflow).has_executable_steps = true) := by
  refine ⟨stepForTransfer_step_eq, fun w => rfl, ?_, fun w => ⟨rfl, rfl⟩, by decide⟩
  intro w
  have hp : List.Pairwise (fun p q : Nat × WorkflowNode => p.1 < q.1)
      ((w.nodes.filter (fun n => n.type == "transfer")).enum) := by
    rw [List.enum_eq_enumFrom]
    exact pairwise_fst_enumFrom (w.nodes.filter (fun n => n.type == "transfer")) 0
  exact steps_pairwise_aux w.nodes w.edges
    ((w.nodes.filter (fun n => n.type == "transfer")).enum) hp

/-- Witness for C9 (amended): the step emitted for the transfer node at
index 0 among transfer-type nodes carries step number 1. -/
theorem step_numbering_spec_witness :
    ((stepForTransfer c9nodes c9edges 0 c9transfer).map (fun st => st.step)) = some 1 := by
  cases hs : stepForTransfer c9nodes c9edges 0 c9transfer with
  | none => exact absurd hs (by decide)
  | some st =>
    have h := step_numbering_spec.1 c9nodes c9edges 0 c9transfer st hs
    simp [h]

end NCP
